import Mathlib

/-!
# Haiku window-system support: the event bridge declared in `haiku_support.h`

A shallow embedding of the declarations of `src/haiku_support.h` (the event-kind
enumeration, the event records, the modifier masks, the rectangle-size macros and the
prototypes of the port functions) together with a model of the port functions whose
bodies live outside the header.
-/

set_option linter.unusedVariables false

namespace Haiku

/-! ## `enum haiku_event_type` -/

/-- The enumeration `haiku_event_type`, one constructor per enumerator, in the order
of the declaration. -/
inductive haiku_event_type
  | QUIT_REQUESTED
  | FRAME_RESIZED
  | FRAME_EXPOSED
  | KEY_DOWN
  | KEY_UP
  | ACTIVATION
  | MOUSE_MOTION
  | BUTTON_DOWN
  | BUTTON_UP
  | ICONIFICATION
  | MOVE_EVENT
  | SCROLL_BAR_VALUE_EVENT
  | SCROLL_BAR_PART_EVENT
  | SCROLL_BAR_DRAG_EVENT
  | WHEEL_MOVE_EVENT
  | MENU_BAR_RESIZE
  | MENU_BAR_CLICK
  | MENU_BAR_OPEN
  | MENU_BAR_SELECT_EVENT
  | MENU_BAR_CLOSE
  | FILE_PANEL_EVENT
  | MENU_BAR_HELP_EVENT
  | ZOOM_EVENT
  | DRAG_AND_DROP_EVENT
  | APP_QUIT_REQUESTED_EVENT
  | DUMMY_EVENT
  | MENU_BAR_LEFT
  deriving DecidableEq, Repr

namespace haiku_event_type

/-- The enumerators of `haiku_event_type` as the declaration lists them. -/
def enumerators : List haiku_event_type :=
  [ QUIT_REQUESTED, FRAME_RESIZED, FRAME_EXPOSED, KEY_DOWN, KEY_UP, ACTIVATION,
    MOUSE_MOTION, BUTTON_DOWN, BUTTON_UP, ICONIFICATION, MOVE_EVENT,
    SCROLL_BAR_VALUE_EVENT, SCROLL_BAR_PART_EVENT, SCROLL_BAR_DRAG_EVENT,
    WHEEL_MOVE_EVENT, MENU_BAR_RESIZE, MENU_BAR_CLICK, MENU_BAR_OPEN,
    MENU_BAR_SELECT_EVENT, MENU_BAR_CLOSE, FILE_PANEL_EVENT, MENU_BAR_HELP_EVENT,
    ZOOM_EVENT, DRAG_AND_DROP_EVENT, APP_QUIT_REQUESTED_EVENT, DUMMY_EVENT,
    MENU_BAR_LEFT ]

/-- The integer value of an enumerator.  No enumerator of `haiku_event_type` has an
initialiser, so the first one is 0 and each later one is its predecessor plus one:
the value is the position in the declaration. -/
def toInt (k : haiku_event_type) : Int :=
  (enumerators.indexOf k : Nat)

/-- The enumerator with a given integer value, if there is one: the cast
`(enum haiku_event_type) typ` restricted to the declared values. -/
def ofInt (n : Int) : Option haiku_event_type :=
  if 0 ≤ n then enumerators.get? n.toNat else none

end haiku_event_type

open haiku_event_type

/-! ## The event kinds as the specification enumerates them -/

/-- The event kinds named by the specification's data model, in the order of its list:
window-close request, frame resize, frame expose, key down/up, activation change,
pointer motion, button down/up, iconify, move, scroll-bar value/part/drag, wheel move,
menu-bar resize/click/open/select/close/help/left, file-panel result, drag-and-drop,
app-quit-request, and a no-op placeholder. -/
inductive SpecKind
  | windowCloseRequest
  | frameResize
  | frameExpose
  | keyDown
  | keyUp
  | activationChange
  | pointerMotion
  | buttonDown
  | buttonUp
  | iconify
  | move
  | scrollBarValue
  | scrollBarPart
  | scrollBarDrag
  | wheelMove
  | menuBarResize
  | menuBarClick
  | menuBarOpen
  | menuBarSelect
  | menuBarClose
  | menuBarHelp
  | menuBarLeft
  | filePanelResult
  | dragAndDrop
  | appQuitRequest
  | noOpPlaceholder
  deriving DecidableEq, Repr

/-- The kinds of the specification's list, in its order. -/
def SpecKind.all : List SpecKind :=
  [ .windowCloseRequest, .frameResize, .frameExpose, .keyDown, .keyUp, .activationChange,
    .pointerMotion, .buttonDown, .buttonUp, .iconify, .move, .scrollBarValue,
    .scrollBarPart, .scrollBarDrag, .wheelMove, .menuBarResize, .menuBarClick,
    .menuBarOpen, .menuBarSelect, .menuBarClose, .menuBarHelp, .menuBarLeft,
    .filePanelResult, .dragAndDrop, .appQuitRequest, .noOpPlaceholder ]

/-- The kind of the specification's list that an enumerator of the header stands for,
read off the enumerator's name; `ZOOM_EVENT` (payload `struct haiku_zoom_event`) stands
for none of them. -/
def haiku_event_type.specKind : haiku_event_type → Option SpecKind
  | QUIT_REQUESTED => some .windowCloseRequest
  | FRAME_RESIZED => some .frameResize
  | FRAME_EXPOSED => some .frameExpose
  | KEY_DOWN => some .keyDown
  | KEY_UP => some .keyUp
  | ACTIVATION => some .activationChange
  | MOUSE_MOTION => some .pointerMotion
  | BUTTON_DOWN => some .buttonDown
  | BUTTON_UP => some .buttonUp
  | ICONIFICATION => some .iconify
  | MOVE_EVENT => some .move
  | SCROLL_BAR_VALUE_EVENT => some .scrollBarValue
  | SCROLL_BAR_PART_EVENT => some .scrollBarPart
  | SCROLL_BAR_DRAG_EVENT => some .scrollBarDrag
  | WHEEL_MOVE_EVENT => some .wheelMove
  | MENU_BAR_RESIZE => some .menuBarResize
  | MENU_BAR_CLICK => some .menuBarClick
  | MENU_BAR_OPEN => some .menuBarOpen
  | MENU_BAR_SELECT_EVENT => some .menuBarSelect
  | MENU_BAR_CLOSE => some .menuBarClose
  | FILE_PANEL_EVENT => some .filePanelResult
  | MENU_BAR_HELP_EVENT => some .menuBarHelp
  | ZOOM_EVENT => none
  | DRAG_AND_DROP_EVENT => some .dragAndDrop
  | APP_QUIT_REQUESTED_EVENT => some .appQuitRequest
  | DUMMY_EVENT => some .noOpPlaceholder
  | MENU_BAR_LEFT => some .menuBarLeft

/-! ## The event records -/

/-- The C types that occur as field types of the event records. -/
inductive CType
  | void_ptr
  | int
  | unsigned
  | uint32_t
  | bigtime_t
  | float
  | bool
  | char
  | enum_haiku_scroll_bar_part
  deriving DecidableEq, Repr

/-- One field of a record declaration: its type and its name. -/
structure Field where
  ty : CType
  name : String
  deriving DecidableEq, Repr

/-- A record declaration: its fields in declaration order. -/
abbrev StructDecl := List Field

namespace Decl

/-- Declaration of `struct haiku_quit_requested_event`. -/
def haiku_quit_requested_event : StructDecl :=
  [⟨.void_ptr, "window"⟩]

/-- Declaration of `struct haiku_resize_event`. -/
def haiku_resize_event : StructDecl :=
  [⟨.void_ptr, "window"⟩, ⟨.float, "px_heightf"⟩, ⟨.float, "px_widthf"⟩]

/-- Declaration of `struct haiku_expose_event`. -/
def haiku_expose_event : StructDecl :=
  [⟨.void_ptr, "window"⟩, ⟨.int, "x"⟩, ⟨.int, "y"⟩, ⟨.int, "width"⟩, ⟨.int, "height"⟩]

/-- Declaration of `struct haiku_drag_and_drop_event`. -/
def haiku_drag_and_drop_event : StructDecl :=
  [⟨.void_ptr, "window"⟩, ⟨.int, "x"⟩, ⟨.int, "y"⟩, ⟨.void_ptr, "message"⟩]

/-- Declaration of `struct haiku_app_quit_requested_event`. -/
def haiku_app_quit_requested_event : StructDecl :=
  [⟨.char, "dummy"⟩]

/-- Declaration of `struct haiku_dummy_event`. -/
def haiku_dummy_event : StructDecl :=
  [⟨.char, "dummy"⟩]

/-- Declaration of `struct haiku_key_event`. -/
def haiku_key_event : StructDecl :=
  [⟨.void_ptr, "window"⟩, ⟨.int, "modifiers"⟩, ⟨.unsigned, "keysym"⟩,
   ⟨.uint32_t, "multibyte_char"⟩, ⟨.bigtime_t, "time"⟩]

/-- Declaration of `struct haiku_activation_event`. -/
def haiku_activation_event : StructDecl :=
  [⟨.void_ptr, "window"⟩, ⟨.int, "activated_p"⟩]

/-- Declaration of `struct haiku_mouse_motion_event`. -/
def haiku_mouse_motion_event : StructDecl :=
  [⟨.void_ptr, "window"⟩, ⟨.bool, "just_exited_p"⟩, ⟨.int, "x"⟩, ⟨.int, "y"⟩,
   ⟨.bigtime_t, "time"⟩, ⟨.bool, "dnd_message"⟩]

/-- Declaration of `struct haiku_menu_bar_left_event`. -/
def haiku_menu_bar_left_event : StructDecl :=
  [⟨.void_ptr, "window"⟩, ⟨.int, "x"⟩, ⟨.int, "y"⟩]

/-- Declaration of `struct haiku_menu_bar_click_event`. -/
def haiku_menu_bar_click_event : StructDecl :=
  [⟨.void_ptr, "window"⟩, ⟨.int, "x"⟩, ⟨.int, "y"⟩]

/-- Declaration of `struct haiku_button_event`. -/
def haiku_button_event : StructDecl :=
  [⟨.void_ptr, "window"⟩, ⟨.int, "btn_no"⟩, ⟨.int, "modifiers"⟩, ⟨.int, "x"⟩, ⟨.int, "y"⟩,
   ⟨.bigtime_t, "time"⟩]

/-- Declaration of `struct haiku_iconification_event`. -/
def haiku_iconification_event : StructDecl :=
  [⟨.void_ptr, "window"⟩, ⟨.int, "iconified_p"⟩]

/-- Declaration of `struct haiku_move_event`. -/
def haiku_move_event : StructDecl :=
  [⟨.void_ptr, "window"⟩, ⟨.int, "x"⟩, ⟨.int, "y"⟩]

/-- Declaration of `struct haiku_wheel_move_event`. -/
def haiku_wheel_move_event : StructDecl :=
  [⟨.void_ptr, "window"⟩, ⟨.int, "modifiers"⟩, ⟨.float, "delta_x"⟩, ⟨.float, "delta_y"⟩]

/-- Declaration of `struct haiku_menu_bar_select_event`. -/
def haiku_menu_bar_select_event : StructDecl :=
  [⟨.void_ptr, "window"⟩, ⟨.void_ptr, "ptr"⟩]

/-- Declaration of `struct haiku_file_panel_event`. -/
def haiku_file_panel_event : StructDecl :=
  [⟨.void_ptr, "ptr"⟩]

/-- Declaration of `struct haiku_menu_bar_help_event`. -/
def haiku_menu_bar_help_event : StructDecl :=
  [⟨.void_ptr, "window"⟩, ⟨.int, "mb_idx"⟩, ⟨.void_ptr, "data"⟩, ⟨.bool, "highlight_p"⟩]

/-- Declaration of `struct haiku_zoom_event`. -/
def haiku_zoom_event : StructDecl :=
  [⟨.void_ptr, "window"⟩, ⟨.bool, "zoomed"⟩]

/-- Declaration of `struct haiku_scroll_bar_value_event`. -/
def haiku_scroll_bar_value_event : StructDecl :=
  [⟨.void_ptr, "scroll_bar"⟩, ⟨.void_ptr, "window"⟩, ⟨.int, "position"⟩]

/-- Declaration of `struct haiku_scroll_bar_drag_event`. -/
def haiku_scroll_bar_drag_event : StructDecl :=
  [⟨.void_ptr, "scroll_bar"⟩, ⟨.void_ptr, "window"⟩, ⟨.int, "dragging_p"⟩]

/-- Declaration of `struct haiku_scroll_bar_part_event`. -/
def haiku_scroll_bar_part_event : StructDecl :=
  [⟨.void_ptr, "scroll_bar"⟩, ⟨.void_ptr, "window"⟩, ⟨.enum_haiku_scroll_bar_part, "part"⟩]

/-- Declaration of `struct haiku_menu_bar_resize_event`. -/
def haiku_menu_bar_resize_event : StructDecl :=
  [⟨.void_ptr, "window"⟩, ⟨.int, "width"⟩, ⟨.int, "height"⟩]

/-- Declaration of `struct haiku_menu_bar_state_event`. -/
def haiku_menu_bar_state_event : StructDecl :=
  [⟨.void_ptr, "window"⟩]

end Decl


/-! ## The payload table of the specification -/

/-- What the specification's payload table says of one field: its role, with the type
where the table gives one. -/
inductive SpecField
  | windowRef
  | scrollBarRef
  | widthF32
  | heightF32
  | modifierBitmask
  | keySymbol
  | codepoint
  | timestamp
  | justExitedFlag
  | x
  | y
  | carriesDragPayloadFlag
  | buttonIndex
  | integerPosition
  | handle
  deriving DecidableEq, Repr

/-- The rows of the specification's table of representative payload shapes. -/
inductive TableRow
  | windowCloseRequest
  | frameResize
  | keyDownUp
  | pointerMotion
  | buttonDownUp
  | dragAndDrop
  | scrollBarValue
  | menuBarSelect
  | filePanelResult
  deriving DecidableEq, Repr

/-- The fields the specification's table lists for a row, in the table's order. -/
def TableRow.specFields : TableRow → List SpecField
  | .windowCloseRequest => [.windowRef]
  | .frameResize => [.windowRef, .widthF32, .heightF32]
  | .keyDownUp => [.windowRef, .modifierBitmask, .keySymbol, .codepoint, .timestamp]
  | .pointerMotion =>
      [.windowRef, .justExitedFlag, .x, .y, .timestamp, .carriesDragPayloadFlag]
  | .buttonDownUp => [.windowRef, .buttonIndex, .modifierBitmask, .x, .y, .timestamp]
  | .dragAndDrop => [.windowRef, .x, .y, .handle]
  | .scrollBarValue => [.scrollBarRef, .windowRef, .integerPosition]
  | .menuBarSelect => [.windowRef, .handle]
  | .filePanelResult => [.handle]

/-- The record of the header that carries the payload of a row of the table. -/
def TableRow.record : TableRow → StructDecl
  | .windowCloseRequest => Decl.haiku_quit_requested_event
  | .frameResize => Decl.haiku_resize_event
  | .keyDownUp => Decl.haiku_key_event
  | .pointerMotion => Decl.haiku_mouse_motion_event
  | .buttonDownUp => Decl.haiku_button_event
  | .dragAndDrop => Decl.haiku_drag_and_drop_event
  | .scrollBarValue => Decl.haiku_scroll_bar_value_event
  | .menuBarSelect => Decl.haiku_menu_bar_select_event
  | .filePanelResult => Decl.haiku_file_panel_event

/-- The table entry a declared field amounts to, from its C type and its name; `none`
for a field the table has no word for. -/
def Field.describe (f : Field) : Option SpecField :=
  match f.ty, f.name with
  | .void_ptr, "window" => some .windowRef
  | .void_ptr, "scroll_bar" => some .scrollBarRef
  | .void_ptr, "message" => some .handle
  | .void_ptr, "ptr" => some .handle
  | .float, "px_widthf" => some .widthF32
  | .float, "px_heightf" => some .heightF32
  | .int, "modifiers" => some .modifierBitmask
  | .unsigned, "keysym" => some .keySymbol
  | .uint32_t, "multibyte_char" => some .codepoint
  | .bigtime_t, "time" => some .timestamp
  | .bool, "just_exited_p" => some .justExitedFlag
  | .int, "x" => some .x
  | .int, "y" => some .y
  | .bool, "dnd_message" => some .carriesDragPayloadFlag
  | .int, "btn_no" => some .buttonIndex
  | .int, "position" => some .integerPosition
  | _, _ => none

/-- The shape of a declared record in the table's vocabulary, field by field. -/
def StructDecl.shape (d : StructDecl) : List (Option SpecField) :=
  d.map Field.describe

/-! ## Modifier masks -/

/-- The mask `HAIKU_MODIFIER_ALT`. -/
def HAIKU_MODIFIER_ALT : Nat := 1

/-- The mask `HAIKU_MODIFIER_CTRL`. -/
def HAIKU_MODIFIER_CTRL : Nat := 1 <<< 1

/-- The mask `HAIKU_MODIFIER_SHIFT`. -/
def HAIKU_MODIFIER_SHIFT : Nat := 1 <<< 2

/-- The mask `HAIKU_MODIFIER_SUPER`. -/
def HAIKU_MODIFIER_SUPER : Nat := 1 <<< 3

/-- The four modifiers the masks stand for. -/
inductive Modifier
  | ALT
  | CTRL
  | SHIFT
  | SUPER
  deriving DecidableEq, Repr, Fintype

/-- The mask of a modifier. -/
def Modifier.mask : Modifier → Nat
  | .ALT => HAIKU_MODIFIER_ALT
  | .CTRL => HAIKU_MODIFIER_CTRL
  | .SHIFT => HAIKU_MODIFIER_SHIFT
  | .SUPER => HAIKU_MODIFIER_SUPER

/-- The value of a `modifiers` field for a set of modifiers held down: the bitwise OR
of the masks of its members. -/
def modifierBits (S : Finset Modifier) : Nat :=
  (if Modifier.ALT ∈ S then HAIKU_MODIFIER_ALT else 0)
    ||| (if Modifier.CTRL ∈ S then HAIKU_MODIFIER_CTRL else 0)
    ||| (if Modifier.SHIFT ∈ S then HAIKU_MODIFIER_SHIFT else 0)
    ||| (if Modifier.SUPER ∈ S then HAIKU_MODIFIER_SUPER else 0)

/-- The bitwise OR of the masks of a sequence of modifiers, accumulated one at a time
as in `modifiers |= mask`. -/
def orMasks (ms : List Modifier) : Nat :=
  ms.foldl (fun acc m => acc ||| m.mask) 0

/-- The positions, among the 32 bits of an `int`, of the bits set in a value. -/
def setBits (n : Nat) : List Nat :=
  (List.range 32).filter (fun i => n.testBit i)

/-! ## Rectangle sizes

The coordinates of the toolkit's rectangle are single-precision floats, so the
subtraction and the addition of the two expressions below round. -/

/-- A single-precision (binary32) floating-point value: a finite value, given by the
rational it denotes, an infinity with its sign, or a NaN.  The sign of a zero is not
tracked. -/
inductive F32
  | finite (value : ℚ)
  | inf (negative : Bool)
  | nan
  deriving DecidableEq

/-- The integer nearest to a rational, a tie going to the even one. -/
def roundHalfEven (x : ℚ) : ℤ :=
  if x - Int.floor x < 1 / 2 then Int.floor x
  else if 1 / 2 < x - Int.floor x then Int.floor x + 1
  else if Int.floor x % 2 = 0 then Int.floor x
  else Int.floor x + 1

/-- The spacing of the binary32 values around a rational: with a significand of 24 bits,
2 to the power e - 23 where e is the binary exponent of the rational, and no exponent
goes below -126. -/
def F32.ulp (q : ℚ) : ℚ :=
  (2 : ℚ) ^ (max (Int.log 2 |q|) (-126) - 23)

/-- The binary32 value a rational rounds to: the nearest multiple of the spacing, a tie
going to the even significand; a result of magnitude 2^128 or more is an infinity. -/
def F32.round (q : ℚ) : F32 :=
  if (2 : ℚ) ^ 128 ≤ |(roundHalfEven (q / F32.ulp q) : ℚ) * F32.ulp q| then
    .inf (decide (q < 0))
  else .finite ((roundHalfEven (q / F32.ulp q) : ℚ) * F32.ulp q)

/-- Whether a rational is a binary32 value. -/
def F32.exact (q : ℚ) : Prop :=
  F32.round q = .finite q

instance (q : ℚ) : Decidable (F32.exact q) :=
  inferInstanceAs (Decidable (F32.round q = .finite q))

/-- The negation of a float. -/
def F32.neg : F32 → F32
  | .finite a => .finite (-a)
  | .inf s => .inf (!s)
  | .nan => .nan

/-- The float sum `a + b`: the exact sum, rounded. -/
def F32.add : F32 → F32 → F32
  | .finite a, .finite b => F32.round (a + b)
  | .finite _, .inf s => .inf s
  | .inf s, .finite _ => .inf s
  | .inf s, .inf s' => if s = s' then .inf s else .nan
  | _, _ => .nan

/-- The float difference `a - b`: the exact difference, rounded. -/
def F32.sub (a b : F32) : F32 :=
  F32.add a (F32.neg b)

/-- The conversion of an `int` to a float, as for the `1` of the two expressions. -/
def F32.ofInt (n : ℤ) : F32 :=
  F32.round n

/-- The function `ceil`: the least integer not below a finite value; an infinity or a
NaN is returned as it is. -/
def F32.ceil : F32 → F32
  | .finite a => .finite (Int.ceil a)
  | x => x

/-- The toolkit's rectangle, built as `BRect (left, top, right, bottom)`, with its four
float coordinates. -/
structure BRect where
  left : F32
  top : F32
  right : F32
  bottom : F32
  deriving DecidableEq

/-- The expression `BE_RECT_HEIGHT (rect)`, that is
`ceil (((rect).bottom - (rect).top) + 1)`. -/
def BE_RECT_HEIGHT (rect : BRect) : F32 :=
  F32.ceil (F32.add (F32.sub rect.bottom rect.top) (F32.ofInt 1))

/-- The expression `BE_RECT_WIDTH (rect)`, that is
`ceil (((rect).right - (rect).left) + 1)`. -/
def BE_RECT_WIDTH (rect : BRect) : F32 :=
  F32.ceil (F32.add (F32.sub rect.right rect.left) (F32.ofInt 1))

/-- Modelled from the spec: the toolkit's `IntegerWidth` is not part of the header; the
header's comment describes it as returning the numerical difference between the end
and start sides, as an integer. -/
def BRect.IntegerWidth (rect : BRect) : F32 :=
  F32.ceil (F32.sub rect.right rect.left)

/-- Modelled from the spec: the toolkit's `IntegerHeight` is not part of the header; the
header's comment describes it as returning the numerical difference between the end
and start sides, as an integer. -/
def BRect.IntegerHeight (rect : BRect) : F32 :=
  F32.ceil (F32.sub rect.bottom rect.top)

/-! ## Prototypes of the port functions -/

/-- The parameter types that occur in the prototypes of the port functions. -/
inductive CParam
  | enum_haiku_event_type
  | enum_haiku_event_type_ptr
  | void_ptr
  | ssize_t
  | ssize_t_ptr
  | bigtime_t
  | bool
  deriving DecidableEq, Repr

/-- Parameter list of `int haiku_read (enum haiku_event_type *, void *, ssize_t)`. -/
def haiku_read_params : List CParam :=
  [.enum_haiku_event_type_ptr, .void_ptr, .ssize_t]

/-- Parameter list of `int haiku_read_with_timeout (enum haiku_event_type *,
void *, ssize_t, bigtime_t, bool)`. -/
def haiku_read_with_timeout_params : List CParam :=
  [.enum_haiku_event_type_ptr, .void_ptr, .ssize_t, .bigtime_t, .bool]

/-- Parameter list of `int haiku_write (enum haiku_event_type, void *)`. -/
def haiku_write_params : List CParam :=
  [.enum_haiku_event_type, .void_ptr]

/-- Parameter list of `int haiku_write_without_signal (enum haiku_event_type,
void *, bool)`. -/
def haiku_write_without_signal_params : List CParam :=
  [.enum_haiku_event_type, .void_ptr, .bool]

/-! ## Field values and the key-event record -/

/-- The value of one field of an event record.  Pointers are addresses, floats are
their 32-bit patterns, so that equality of values is equality of bits. -/
inductive CValue
  | void_ptr (addr : Nat)
  | int (v : Int)
  | unsigned (v : Nat)
  | uint32_t (v : Nat)
  | bigtime_t (v : Int)
  | float (bits : Nat)
  | bool (v : Bool)
  | char (v : Int)
  | enum_haiku_scroll_bar_part (v : Int)
  deriving DecidableEq, Repr

/-- The C type a field value belongs to. -/
def CValue.ctype : CValue → CType
  | .void_ptr _ => .void_ptr
  | .int _ => .int
  | .unsigned _ => .unsigned
  | .uint32_t _ => .uint32_t
  | .bigtime_t _ => .bigtime_t
  | .float _ => .float
  | .bool _ => .bool
  | .char _ => .char
  | .enum_haiku_scroll_bar_part _ => .enum_haiku_scroll_bar_part

/-- A payload: the values of the fields of a record, in declaration order. -/
abbrev Payload := List CValue

/-- Whether a payload is a value of a declared record: one value per field, each of the
field's type. -/
def StructDecl.admits (d : StructDecl) (p : Payload) : Bool :=
  d.map Field.ty == p.map CValue.ctype

/-- A value of `struct haiku_key_event`. -/
structure haiku_key_event where
  window : Nat
  modifiers : Int
  keysym : Nat
  multibyte_char : Nat
  time : Int
  deriving DecidableEq, Repr

/-- The payload of a key event: its fields in declaration order. -/
def haiku_key_event.toPayload (e : haiku_key_event) : Payload :=
  [.void_ptr e.window, .int e.modifiers, .unsigned e.keysym, .uint32_t e.multibyte_char,
   .bigtime_t e.time]

/-- The key event a payload holds, when the payload is a value of
`struct haiku_key_event`. -/
def haiku_key_event.ofPayload : Payload → Option haiku_key_event
  | [.void_ptr w, .int m, .unsigned k, .uint32_t c, .bigtime_t t] => some ⟨w, m, k, c, t⟩
  | _ => none

/-! ## The ports and the port functions

The header declares the two ports and the prototypes of the functions that read and
write them; the bodies are in another file of the repository.  The definitions below
follow the specification's description of the channel, the writer and the reader. -/

/-- One envelope in a port: the integer code of the event kind and the payload. -/
structure Message where
  code : Int
  buf : Payload
  deriving DecidableEq, Repr

/-- Modelled from the spec: the state of one channel (`port_application_to_emacs` or
`port_popup_menu_to_emacs`), whose implementation is outside the header: a bounded,
ordered queue of envelopes, oldest first, that may have been torn down, and the count
of wake signals raised for its reader. -/
structure Port where
  capacity : Nat
  queue : List Message
  closed : Bool
  signals : Nat
  deriving DecidableEq, Repr

/-- The outcome of a write: success, one of the specification's two failures, or the
writer left suspended on a full channel. -/
inductive WriteStatus
  | ok
  | ChannelFull
  | ChannelClosed
  | blocked
  deriving DecidableEq, Repr

/-- The outcome of a read: an envelope, a timeout, or the reader left suspended on an
empty channel. -/
inductive ReadStatus
  | envelope (code : Int) (buf : Payload)
  | Timeout
  | blocked
  deriving DecidableEq, Repr

/-- Modelled from the spec: `haiku_io_init`, whose body is outside the header, creates
a channel, empty and open; the capacity is a configuration value. -/
def haiku_io_init (capacity : Nat) : Port :=
  { capacity := capacity, queue := [], closed := false, signals := 0 }

/-- Modelled from the spec: the channel's `write(envelope, block_if_full)`, outside the
header.  A torn-down channel fails with `ChannelClosed`; with room the envelope is
appended behind the pending ones; a full channel fails fast with `ChannelFull` unless
the writer asked to block, in which case it stays suspended. -/
def Port.write (p : Port) (m : Message) (block_if_full : Bool) : WriteStatus × Port :=
  if p.closed then (.ChannelClosed, p)
  else if p.queue.length < p.capacity then (.ok, { p with queue := p.queue ++ [m] })
  else if block_if_full then (.blocked, p)
  else (.ChannelFull, p)

/-- Modelled from the spec: the silent write `haiku_write_without_signal (type, buf,
flag)`, whose body is outside the header: it appends the envelope without any wake
signal, the flag controlling blocking on a full channel. -/
def haiku_write_without_signal (p : Port) (type : haiku_event_type) (buf : Payload)
    (block : Bool) : WriteStatus × Port :=
  p.write ⟨toInt type, buf⟩ block

/-- Modelled from the spec: the signaling write `haiku_write (type, buf)`, whose body is
outside the header: it appends the envelope and, once appended, wakes the reader.  The
prototype has no flag; the write is taken as blocking on a full channel. -/
def haiku_write (p : Port) (type : haiku_event_type) (buf : Payload) :
    WriteStatus × Port :=
  match p.write ⟨toInt type, buf⟩ true with
  | (.ok, p') => (.ok, { p' with signals := p'.signals + 1 })
  | r => r

/-- Modelled from the spec: `haiku_read`, whose body is outside the header: it removes
the oldest envelope and returns its kind and payload; on an empty channel the reader
stays suspended. -/
def haiku_read (p : Port) : ReadStatus × Port :=
  match p.queue with
  | [] => (.blocked, p)
  | m :: rest => (.envelope m.code m.buf, { p with queue := rest })

/-- Modelled from the spec: `haiku_read_with_timeout`, whose body is outside the header:
it removes and returns the oldest envelope if there is one; with none pending and no
writer active it signals `Timeout` once the bound, in microseconds, has elapsed.  The
specification does not describe the last parameter of the prototype. -/
def haiku_read_with_timeout (p : Port) (timeout : Int) (flag : Bool) : ReadStatus × Port :=
  match p.queue with
  | [] => (.Timeout, p)
  | m :: rest => (.envelope m.code m.buf, { p with queue := rest })

/-- One write to a channel: the producer thread that issues it, the variant used
(`none` for `haiku_write`, `some flag` for `haiku_write_without_signal` with that
flag), the event kind and the payload. -/
structure WriteCall where
  producer : Nat
  silent : Option Bool
  type : haiku_event_type
  buf : Payload
  deriving DecidableEq, Repr

/-- Perform one write call on a channel. -/
def WriteCall.run (w : WriteCall) (p : Port) : WriteStatus × Port :=
  match w.silent with
  | none => haiku_write p w.type w.buf
  | some block => haiku_write_without_signal p w.type w.buf block

/-- The envelope a write call puts into the channel. -/
def WriteCall.message (w : WriteCall) : Message :=
  ⟨toInt w.type, w.buf⟩

/-- Perform a sequence of write calls in the order the channel serializes them; `none`
as soon as one of them does not succeed. -/
def writeAll (p : Port) : List WriteCall → Option Port
  | [] => some p
  | w :: ws =>
    match w.run p with
    | (.ok, p') => writeAll p' ws
    | _ => none

/-- The results of `n` successive calls of `haiku_read`, with the channel they leave. -/
def readN (p : Port) : Nat → List ReadStatus × Port
  | 0 => ([], p)
  | n + 1 =>
    let r := haiku_read p
    let rs := readN r.2 n
    (r.1 :: rs.1, rs.2)

/-! ## The dispatcher -/

/-- Modelled from the spec: the state of the consumer-side dispatcher, which is outside
the header: the channel it drains, the handler invocations made so far (kind and
reconstructed record, oldest first), and whether it has aborted. -/
structure Dispatcher where
  port : Port
  handled : List (haiku_event_type × Payload)
  aborted : Bool
  deriving DecidableEq, Repr

/-- What one turn of the dispatcher loop did. -/
inductive DispatchStatus
  | idle
  | dispatched (kind : haiku_event_type)
  | aborted
  deriving DecidableEq, Repr

/-- Modelled from the spec: one turn of the dispatcher loop, which is outside the
header: probe for a pending envelope; if there is one, read it and switch on its kind; a
kind outside the enumeration is fatal and the dispatcher aborts, otherwise the record
is reconstructed and handed to the handler of the kind.  An aborted dispatcher does
nothing more. -/
def Dispatcher.step (d : Dispatcher) : DispatchStatus × Dispatcher :=
  if d.aborted then (.aborted, d)
  else if d.port.queue.isEmpty then (.idle, d)
  else
    match haiku_read d.port with
    | (.envelope code buf, p') =>
      match ofInt code with
      | some kind => (.dispatched kind, { d with port := p', handled := d.handled ++ [(kind, buf)] })
      | none => (.aborted, { d with port := p', aborted := true })
    | (_, p') => (.idle, { d with port := p' })

/-- The dispatcher after `n` turns of its loop. -/
def Dispatcher.run (d : Dispatcher) : Nat → Dispatcher
  | 0 => d
  | n + 1 => (d.step.2).run n

/-! ## Facts about the enumeration -/

theorem toInt_lt (k : haiku_event_type) : 0 ≤ toInt k ∧ toInt k ≤ 26 := by
  cases k <;> decide

theorem ofInt_toInt (k : haiku_event_type) : ofInt (toInt k) = some k := by
  cases k <;> rfl

theorem toInt_injective : Function.Injective toInt := by
  intro a b h
  have ha := ofInt_toInt a
  rw [h, ofInt_toInt b] at ha
  exact (Option.some.inj ha).symm

theorem ofInt_some_of_range (n : Int) (h0 : 0 ≤ n) (h1 : n ≤ 26) :
    ∃ k, ofInt n = some k ∧ toInt k = n := by
  have hn : n = 0 ∨ n = 1 ∨ n = 2 ∨ n = 3 ∨ n = 4 ∨ n = 5 ∨ n = 6 ∨ n = 7 ∨ n = 8 ∨ n = 9
      ∨ n = 10 ∨ n = 11 ∨ n = 12 ∨ n = 13 ∨ n = 14 ∨ n = 15 ∨ n = 16 ∨ n = 17 ∨ n = 18
      ∨ n = 19 ∨ n = 20 ∨ n = 21 ∨ n = 22 ∨ n = 23 ∨ n = 24 ∨ n = 25 ∨ n = 26 := by omega
  rcases hn with h | h | h | h | h | h | h | h | h | h | h | h | h | h | h | h | h | h | h
    | h | h | h | h | h | h | h | h <;> subst h <;> exact ⟨_, rfl, rfl⟩

theorem ofInt_eq_some_iff (n : Int) (k : haiku_event_type) :
    ofInt n = some k ↔ toInt k = n := by
  constructor
  · intro h
    by_cases h0 : 0 ≤ n
    · by_cases h1 : n ≤ 26
      · obtain ⟨k', hk, hk'⟩ := ofInt_some_of_range n h0 h1
        rw [hk] at h
        rw [← Option.some.inj h]
        exact hk'
      · exfalso
        have hlen : enumerators.length ≤ n.toNat := by
          have : enumerators.length = 27 := rfl
          omega
        have hnone : enumerators.get? n.toNat = none := List.get?_eq_none.mpr hlen
        simp only [ofInt, h0, if_true, hnone] at h
        exact Option.noConfusion h
    · simp [ofInt, h0] at h
  · intro h
    rw [← h]
    exact ofInt_toInt k

/-- C8: the 27 enumerators of `haiku_event_type` carry the consecutive values 0
(`QUIT_REQUESTED`) to 26 (`MENU_BAR_LEFT`) in declaration order, the value map is
injective, and an integer is the value of an enumerator exactly when it lies in 0..26. -/
theorem haiku_event_type_discriminants :
    enumerators.length = 27
    ∧ (∀ k : haiku_event_type, k ∈ enumerators)
    ∧ enumerators.map toInt = (List.range 27).map Int.ofNat
    ∧ toInt QUIT_REQUESTED = 0
    ∧ toInt MENU_BAR_LEFT = 26
    ∧ Function.Injective toInt
    ∧ ∀ n : Int, (∃ k : haiku_event_type, toInt k = n) ↔ (0 ≤ n ∧ n ≤ 26) := by
  refine ⟨rfl, ?_, by decide, rfl, rfl, toInt_injective, ?_⟩
  · intro k
    cases k <;> decide
  · intro n
    constructor
    · rintro ⟨k, rfl⟩
      exact toInt_lt k
    · rintro ⟨h0, h1⟩
      obtain ⟨k, _, hk⟩ := ofInt_some_of_range n h0 h1
      exact ⟨k, hk⟩

/-! ## The enumeration against the specification's list -/

theorem specKind_all_complete (s : SpecKind) : s ∈ SpecKind.all := by
  cases s <;> decide

/-- C3, as stated, fails: `ZOOM_EVENT` is an enumerator of `haiku_event_type` and is
none of the kinds the specification enumerates, so not every variant of the enumeration
is one of the listed kinds. -/
theorem haiku_event_type_has_unlisted_kind :
    ZOOM_EVENT ∈ enumerators
    ∧ ZOOM_EVENT.specKind = none
    ∧ ¬ ((∀ k : haiku_event_type, ∃ s ∈ SpecKind.all, k.specKind = some s)
        ∧ (∀ s ∈ SpecKind.all, ∃ k : haiku_event_type, k.specKind = some s)) := by
  refine ⟨by decide, rfl, ?_⟩
  rintro ⟨h, _⟩
  obtain ⟨s, _, hs⟩ := h ZOOM_EVENT
  exact Option.noConfusion hs

/-- C3, amended: the enumeration is closed, with 27 variants: every one of the 26 kinds
the specification enumerates is the kind of exactly one enumerator, and the
enumerators are those 26 and one more, `ZOOM_EVENT`, which is the only enumerator that
stands for no listed kind. -/
theorem haiku_event_type_kinds :
    SpecKind.all.length = 26
    ∧ SpecKind.all.Nodup
    ∧ (∀ s : SpecKind, s ∈ SpecKind.all)
    ∧ enumerators.length = SpecKind.all.length + 1
    ∧ (∀ k : haiku_event_type, k ∈ enumerators)
    ∧ (∀ s : SpecKind, ∃ k : haiku_event_type,
        k.specKind = some s ∧ ∀ k' : haiku_event_type, k'.specKind = some s → k' = k)
    ∧ (∀ k : haiku_event_type, k.specKind = none ↔ k = ZOOM_EVENT)
    ∧ enumerators.filterMap haiku_event_type.specKind
        = [ .windowCloseRequest, .frameResize, .frameExpose, .keyDown, .keyUp,
            .activationChange, .pointerMotion, .buttonDown, .buttonUp, .iconify, .move,
            .scrollBarValue, .scrollBarPart, .scrollBarDrag, .wheelMove, .menuBarResize,
            .menuBarClick, .menuBarOpen, .menuBarSelect, .menuBarClose, .filePanelResult,
            .menuBarHelp, .dragAndDrop, .appQuitRequest, .noOpPlaceholder, .menuBarLeft ] := by
  refine ⟨rfl, by decide, specKind_all_complete, rfl, ?_, ?_, ?_, rfl⟩
  · intro k
    cases k <;> decide
  · intro s
    cases s
    case windowCloseRequest => exact ⟨QUIT_REQUESTED, rfl, by intro k' h; cases k' <;> first | rfl | cases h⟩
    case frameResize => exact ⟨FRAME_RESIZED, rfl, by intro k' h; cases k' <;> first | rfl | cases h⟩
    case frameExpose => exact ⟨FRAME_EXPOSED, rfl, by intro k' h; cases k' <;> first | rfl | cases h⟩
    case keyDown => exact ⟨KEY_DOWN, rfl, by intro k' h; cases k' <;> first | rfl | cases h⟩
    case keyUp => exact ⟨KEY_UP, rfl, by intro k' h; cases k' <;> first | rfl | cases h⟩
    case activationChange => exact ⟨ACTIVATION, rfl, by intro k' h; cases k' <;> first | rfl | cases h⟩
    case pointerMotion => exact ⟨MOUSE_MOTION, rfl, by intro k' h; cases k' <;> first | rfl | cases h⟩
    case buttonDown => exact ⟨BUTTON_DOWN, rfl, by intro k' h; cases k' <;> first | rfl | cases h⟩
    case buttonUp => exact ⟨BUTTON_UP, rfl, by intro k' h; cases k' <;> first | rfl | cases h⟩
    case iconify => exact ⟨ICONIFICATION, rfl, by intro k' h; cases k' <;> first | rfl | cases h⟩
    case move => exact ⟨MOVE_EVENT, rfl, by intro k' h; cases k' <;> first | rfl | cases h⟩
    case scrollBarValue => exact ⟨SCROLL_BAR_VALUE_EVENT, rfl, by intro k' h; cases k' <;> first | rfl | cases h⟩
    case scrollBarPart => exact ⟨SCROLL_BAR_PART_EVENT, rfl, by intro k' h; cases k' <;> first | rfl | cases h⟩
    case scrollBarDrag => exact ⟨SCROLL_BAR_DRAG_EVENT, rfl, by intro k' h; cases k' <;> first | rfl | cases h⟩
    case wheelMove => exact ⟨WHEEL_MOVE_EVENT, rfl, by intro k' h; cases k' <;> first | rfl | cases h⟩
    case menuBarResize => exact ⟨MENU_BAR_RESIZE, rfl, by intro k' h; cases k' <;> first | rfl | cases h⟩
    case menuBarClick => exact ⟨MENU_BAR_CLICK, rfl, by intro k' h; cases k' <;> first | rfl | cases h⟩
    case menuBarOpen => exact ⟨MENU_BAR_OPEN, rfl, by intro k' h; cases k' <;> first | rfl | cases h⟩
    case menuBarSelect => exact ⟨MENU_BAR_SELECT_EVENT, rfl, by intro k' h; cases k' <;> first | rfl | cases h⟩
    case menuBarClose => exact ⟨MENU_BAR_CLOSE, rfl, by intro k' h; cases k' <;> first | rfl | cases h⟩
    case menuBarHelp => exact ⟨MENU_BAR_HELP_EVENT, rfl, by intro k' h; cases k' <;> first | rfl | cases h⟩
    case menuBarLeft => exact ⟨MENU_BAR_LEFT, rfl, by intro k' h; cases k' <;> first | rfl | cases h⟩
    case filePanelResult => exact ⟨FILE_PANEL_EVENT, rfl, by intro k' h; cases k' <;> first | rfl | cases h⟩
    case dragAndDrop => exact ⟨DRAG_AND_DROP_EVENT, rfl, by intro k' h; cases k' <;> first | rfl | cases h⟩
    case appQuitRequest => exact ⟨APP_QUIT_REQUESTED_EVENT, rfl, by intro k' h; cases k' <;> first | rfl | cases h⟩
    case noOpPlaceholder => exact ⟨DUMMY_EVENT, rfl, by intro k' h; cases k' <;> first | rfl | cases h⟩
  · intro k
    cases k <;> simp [haiku_event_type.specKind]

/-! ## The records against the specification's payload table -/

/-- C4, as stated, fails at the frame-resize row: the record
`struct haiku_resize_event` declares the height before the width, while the table lists
(window ref, width, height). -/
theorem haiku_resize_event_order_differs :
    TableRow.frameResize.specFields = [.windowRef, .widthF32, .heightF32]
    ∧ TableRow.frameResize.record.shape = [some .windowRef, some .heightF32, some .widthF32]
    ∧ ¬ (∀ row : TableRow, row.record.shape = row.specFields.map some) := by
  refine ⟨rfl, by decide, ?_⟩
  intro h
  exact absurd (h .frameResize) (by decide)

/-- C4, amended: for each of the nine rows of the payload table the declared record has
exactly the fields the table lists, with the listed types; for every row but frame
resize they stand in the table's order, and the frame-resize record is (window ref,
height: 32-bit float, width: 32-bit float), height first.  The key record is (window
ref, modifier bitmask, key symbol, codepoint, timestamp). -/
theorem payload_records_match_table :
    (∀ row : TableRow, row = .frameResize ∨ row.record.shape = row.specFields.map some)
    ∧ (∀ row : TableRow, (row.record.shape).Perm (row.specFields.map some))
    ∧ TableRow.frameResize.record.shape = [some .windowRef, some .heightF32, some .widthF32]
    ∧ Decl.haiku_resize_event.map Field.ty = [.void_ptr, .float, .float]
    ∧ Decl.haiku_resize_event.map Field.name = ["window", "px_heightf", "px_widthf"]
    ∧ TableRow.keyDownUp.record.shape
        = [some .windowRef, some .modifierBitmask, some .keySymbol, some .codepoint,
           some .timestamp]
    ∧ Decl.haiku_key_event.map Field.ty
        = [.void_ptr, .int, .unsigned, .uint32_t, .bigtime_t] := by
  refine ⟨?_, ?_, by decide, by decide, by decide, by decide, by decide⟩
  · intro row
    cases row <;> first | exact Or.inl rfl | exact Or.inr (by decide)
  · intro row
    cases row <;> decide

/-! ## The prototypes of the two writes -/

/-- C6, as stated, fails: the prototype of `haiku_write` has two parameters, the event
kind and the payload pointer, and no flag. -/
theorem haiku_write_takes_no_flag :
    haiku_write_params = [.enum_haiku_event_type, .void_ptr]
    ∧ ¬ (CParam.bool ∈ haiku_write_params ∧ CParam.bool ∈ haiku_write_without_signal_params) := by
  refine ⟨rfl, ?_⟩
  rintro ⟨h, _⟩
  exact absurd h (by decide)

/-- C6, amended: the silent write `haiku_write_without_signal` takes a caller-supplied
flag, its third and last parameter, that controls whether the write blocks when the
channel is full: on a full open channel the write fails fast with the flag off and
suspends with it on, and otherwise the flag changes nothing.  The signaling write
`haiku_write` takes the event kind and the payload only, and no flag. -/
theorem write_flag_only_on_silent_write :
    haiku_write_params = [.enum_haiku_event_type, .void_ptr]
    ∧ CParam.bool ∉ haiku_write_params
    ∧ haiku_write_without_signal_params = [.enum_haiku_event_type, .void_ptr, .bool]
    ∧ (∀ (p : Port) (type : haiku_event_type) (buf : Payload),
        ((haiku_write_without_signal p type buf true).1 = .blocked
          ↔ (p.closed = false ∧ p.capacity ≤ p.queue.length))
        ∧ ((haiku_write_without_signal p type buf false).1 = .ChannelFull
          ↔ (p.closed = false ∧ p.capacity ≤ p.queue.length))
        ∧ (haiku_write_without_signal p type buf false).1 ≠ .blocked
        ∧ (haiku_write_without_signal p type buf true).1 ≠ .ChannelFull
        ∧ ((p.closed = true ∨ p.queue.length < p.capacity) ↔
            haiku_write_without_signal p type buf true
              = haiku_write_without_signal p type buf false)) := by
  refine ⟨rfl, by decide, rfl, ?_⟩
  intro p type buf
  unfold haiku_write_without_signal Port.write
  by_cases hc : p.closed = true
  · simp [hc]
  · by_cases hl : p.queue.length < p.capacity
    · simp [hc, hl]
    · have hl' : p.capacity ≤ p.queue.length := Nat.le_of_not_lt hl
      simp [hc, hl, hl']

/-! ## The modifier masks -/

theorem modifierBits_insert (m : Modifier) (S : Finset Modifier) :
    modifierBits (insert m S) = modifierBits S ||| m.mask := by
  revert m S; decide

theorem foldl_or_mask (ms : List Modifier) (S : Finset Modifier) :
    ms.foldl (fun acc m => acc ||| m.mask) (modifierBits S) = modifierBits (S ∪ ms.toFinset) := by
  induction ms generalizing S with
  | nil => simp
  | cons m ms ih =>
    rw [List.foldl_cons, ← modifierBits_insert, ih]
    congr 1
    ext x
    simp only [Finset.mem_union, Finset.mem_insert, List.toFinset_cons]
    tauto

theorem orMasks_eq (ms : List Modifier) : orMasks ms = modifierBits ms.toFinset := by
  have h := foldl_or_mask ms ∅
  have h0 : modifierBits ∅ = 0 := by decide
  rw [h0, Finset.empty_union] at h
  exact h

theorem mem_iff_and (S : Finset Modifier) (m : Modifier) : m ∈ S ↔ modifierBits S &&& m.mask ≠ 0 := by
  revert S m; decide

/-- C9: the masks `HAIKU_MODIFIER_ALT`, `_CTRL`, `_SHIFT`, `_SUPER` are 1, 2, 4, 8; each
has exactly one bit set (bit 0, 1, 2, 3) and two different ones share no bit; for every
set of modifiers the OR of its masks lies in 0..15, a modifier belongs to the set
exactly when AND-ing the result with its mask is non-zero, and different sets give
different results. -/
theorem modifier_masks :
    HAIKU_MODIFIER_ALT = 1 ∧ HAIKU_MODIFIER_CTRL = 2
    ∧ HAIKU_MODIFIER_SHIFT = 4 ∧ HAIKU_MODIFIER_SUPER = 8
    ∧ setBits HAIKU_MODIFIER_ALT = [0] ∧ setBits HAIKU_MODIFIER_CTRL = [1]
    ∧ setBits HAIKU_MODIFIER_SHIFT = [2] ∧ setBits HAIKU_MODIFIER_SUPER = [3]
    ∧ (∀ m m' : Modifier, m = m' ∨ m.mask &&& m'.mask = 0)
    ∧ (∀ ms : List Modifier, orMasks ms = modifierBits ms.toFinset)
    ∧ (∀ S : Finset Modifier, modifierBits S ≤ 15)
    ∧ (∀ (S : Finset Modifier) (m : Modifier), m ∈ S ↔ modifierBits S &&& m.mask ≠ 0)
    ∧ Function.Injective modifierBits := by
  refine ⟨rfl, rfl, rfl, rfl, by decide, by decide, by decide, by decide, by decide,
    orMasks_eq, by decide, mem_iff_and, ?_⟩
  intro S T h
  ext m
  rw [mem_iff_and S m, mem_iff_and T m, h]

/-! ## The rectangle macros -/

theorem roundHalfEven_intCast (k : ℤ) : roundHalfEven (k : ℚ) = k := by
  unfold roundHalfEven
  rw [Int.floor_intCast, sub_self, if_pos (by norm_num)]

theorem F32.ulp_of_bounds (q : ℚ) (e : ℤ) (hq : 0 < q) (hlo : (2 : ℚ) ^ e ≤ q)
    (hhi : q < (2 : ℚ) ^ (e + 1)) (he : -126 ≤ e) :
    F32.ulp q = (2 : ℚ) ^ (e - 23) := by
  have h1 : e ≤ Int.log 2 q := by
    have := (Int.zpow_le_iff_le_log (b := 2) (by norm_num) (x := e) hq).mp (by exact_mod_cast hlo)
    exact this
  have h2 : Int.log 2 q < e + 1 := by
    have := (Int.lt_zpow_iff_log_lt (b := 2) (by norm_num) (x := e + 1) hq).mp (by exact_mod_cast hhi)
    exact this
  have h3 : Int.log 2 q = e := by omega
  unfold F32.ulp
  rw [abs_of_pos hq, h3, max_eq_left he]

theorem F32.round_exact (q : ℚ) (x k : ℤ) (hu : F32.ulp q = (2 : ℚ) ^ x)
    (hk : q = (k : ℚ) * (2 : ℚ) ^ x) (hfin : |q| < (2 : ℚ) ^ 128) :
    F32.round q = .finite q := by
  have hx : (2 : ℚ) ^ x ≠ 0 := zpow_ne_zero x (by norm_num)
  have hdiv : q / F32.ulp q = (k : ℚ) := by
    rw [hu, hk, mul_div_assoc, div_self hx, mul_one]
  unfold F32.round
  rw [hdiv, roundHalfEven_intCast, hu, ← hk, if_neg (not_le.mpr hfin)]

theorem F32.ulp_zero : F32.ulp 0 = (2 : ℚ) ^ (-23 : ℤ) := by
  unfold F32.ulp
  rw [abs_zero, Int.log_zero_right]
  rfl

theorem F32.round_natCast (n : ℕ) (h : n ≤ 2 ^ 24) : F32.round (n : ℚ) = .finite n := by
  have hfin : |(n : ℚ)| < (2 : ℚ) ^ 128 := by
    rw [abs_of_nonneg (Nat.cast_nonneg n)]
    have h1 : (n : ℚ) ≤ 2 ^ 24 := by exact_mod_cast h
    have h2 : (2 : ℚ) ^ 24 < 2 ^ 128 := by norm_num
    exact lt_of_le_of_lt h1 h2
  rcases Nat.eq_zero_or_pos n with h0 | hpos
  · subst h0
    exact F32.round_exact _ (-23) 0 (by rw [Nat.cast_zero]; exact F32.ulp_zero) (by simp) hfin
  · have hne : n ≠ 0 := Nat.pos_iff_ne_zero.mp hpos
    have hlo : 2 ^ Nat.log 2 n ≤ n := Nat.pow_log_le_self 2 hne
    have hhi : n < 2 ^ (Nat.log 2 n + 1) := Nat.lt_pow_succ_log_self (by norm_num) n
    have hu : F32.ulp (n : ℚ) = (2 : ℚ) ^ ((Nat.log 2 n : ℤ) - 23) := by
      apply F32.ulp_of_bounds (n : ℚ) (Nat.log 2 n : ℤ) (by exact_mod_cast hpos)
      · rw [zpow_natCast]; exact_mod_cast hlo
      · have : ((Nat.log 2 n : ℤ) + 1) = ((Nat.log 2 n + 1 : ℕ) : ℤ) := by push_cast; ring
        rw [this, zpow_natCast]; exact_mod_cast hhi
      · omega
    have he : Nat.log 2 n ≤ 24 := by
      by_contra hc
      have h25 : 25 ≤ Nat.log 2 n := by omega
      have : 2 ^ 25 ≤ 2 ^ Nat.log 2 n := Nat.pow_le_pow_right (by norm_num) h25
      omega
    rcases Nat.lt_or_ge (Nat.log 2 n) 24 with hlt | hge
    · refine F32.round_exact _ _ ((n : ℤ) * 2 ^ (23 - Nat.log 2 n)) hu ?_ hfin
      have hx : ((Nat.log 2 n : ℤ) - 23) = -((23 - Nat.log 2 n : ℕ) : ℤ) := by omega
      rw [hx, zpow_neg, zpow_natCast]
      push_cast
      field_simp
    · have he24 : Nat.log 2 n = 24 := by omega
      rw [he24] at hlo
      have hn : n = 2 ^ 24 := by omega
      refine F32.round_exact _ _ (2 ^ 23) hu ?_ hfin
      rw [he24, hn]
      norm_num

theorem F32.sub_intCast (a b : ℤ) :
    F32.sub (.finite a) (.finite b) = F32.round ((a - b : ℤ) : ℚ) := by
  unfold F32.sub F32.neg F32.add
  push_cast
  rw [sub_eq_add_neg]

theorem F32.ofInt_one : F32.ofInt 1 = .finite 1 := by
  have := F32.round_natCast 1 (by norm_num)
  simpa [F32.ofInt] using this

theorem rect_extent (a b : ℤ) (h : a ≤ b) (hb : b - a < 2 ^ 24) :
    F32.ceil (F32.add (F32.sub (.finite b) (.finite a)) (F32.ofInt 1))
        = .finite ((b - a + 1 : ℤ) : ℚ)
    ∧ F32.ceil (F32.sub (.finite b) (.finite a)) = .finite ((b - a : ℤ) : ℚ) := by
  obtain ⟨d, hd⟩ := Int.eq_ofNat_of_zero_le (sub_nonneg.mpr h)
  have hd24 : d < 2 ^ 24 := by omega
  have hsub : F32.sub (.finite b) (.finite a) = .finite (d : ℚ) := by
    rw [F32.sub_intCast, hd]
    exact F32.round_natCast d (by omega)
  have hadd : F32.add (.finite (d : ℚ)) (.finite 1) = .finite ((d + 1 : ℕ) : ℚ) := by
    have := F32.round_natCast (d + 1) (by omega)
    unfold F32.add
    rw [← this]
    push_cast
    rfl
  rw [hsub, F32.ofInt_one, hadd, hd]
  constructor
  · unfold F32.ceil
    have : Int.ceil (((d + 1 : ℕ) : ℚ)) = ((d + 1 : ℕ) : ℤ) := Int.ceil_natCast _
    simp only [this]
    push_cast
    rfl
  · unfold F32.ceil
    have : Int.ceil ((d : ℚ)) = (d : ℤ) := Int.ceil_natCast _
    simp only [this]

theorem F32.round_of_bounds (q : ℚ) (e m : ℤ) (hq : 0 < q) (hlo : (2 : ℚ) ^ e ≤ q)
    (hhi : q < (2 : ℚ) ^ (e + 1)) (he : -126 ≤ e)
    (hm : roundHalfEven (q / (2 : ℚ) ^ (e - 23)) = m)
    (hfin : |(m : ℚ) * (2 : ℚ) ^ (e - 23)| < (2 : ℚ) ^ 128) :
    F32.round q = .finite ((m : ℚ) * (2 : ℚ) ^ (e - 23)) := by
  unfold F32.round
  rw [F32.ulp_of_bounds q e hq hlo hhi he, hm, if_neg (not_le.mpr hfin)]

theorem roundHalfEven_tie_even (x : ℚ) (f : ℤ) (hx : x = (f : ℚ) + 1 / 2) (hf : f % 2 = 0) :
    roundHalfEven x = f := by
  have hfl : Int.floor x = f := by
    rw [Int.floor_eq_iff, hx]
    constructor <;> linarith
  unfold roundHalfEven
  rw [hfl, hx]
  have h1 : ¬ ((f : ℚ) + 1 / 2 - f < 1 / 2) := by
    rw [add_sub_cancel_left]; exact lt_irrefl _
  have h2 : ¬ ((1 : ℚ) / 2 < (f : ℚ) + 1 / 2 - f) := by
    rw [add_sub_cancel_left]; exact lt_irrefl _
  rw [if_neg h1, if_neg h2, if_pos hf]

theorem roundHalfEven_below (x : ℚ) (f : ℤ) (h0 : (f : ℚ) ≤ x) (h1 : x < (f : ℚ) + 1 / 2) :
    roundHalfEven x = f := by
  have hfl : Int.floor x = f := by
    rw [Int.floor_eq_iff]
    constructor <;> linarith
  unfold roundHalfEven
  rw [hfl, if_pos (by linarith)]

theorem F32.round_16777216 : F32.round 16777216 = .finite 16777216 := by
  have := F32.round_natCast 16777216 (by norm_num)
  simpa using this

theorem F32.round_16777217 : F32.round 16777217 = .finite 16777216 := by
  have h := F32.round_of_bounds 16777217 24 8388608 (by norm_num) (by norm_num) (by norm_num)
    (by norm_num) (roundHalfEven_tie_even _ 8388608 (by norm_num) (by decide)) (by norm_num)
  rw [h]
  norm_num

theorem F32.round_33554432 : F32.round 33554432 = .finite 33554432 := by
  have h := F32.round_of_bounds 33554432 25 8388608 (by norm_num) (by norm_num) (by norm_num)
    (by norm_num) (roundHalfEven_below _ 8388608 (by norm_num) (by norm_num)) (by norm_num)
  rw [h]
  norm_num

theorem F32.round_33554433 : F32.round 33554433 = .finite 33554432 := by
  have h := F32.round_of_bounds 33554433 25 8388608 (by norm_num) (by norm_num) (by norm_num)
    (by norm_num) (roundHalfEven_below _ 8388608 (by norm_num) (by norm_num)) (by norm_num)
  rw [h]
  norm_num

theorem F32.ceil_natCast (n : ℕ) : F32.ceil (.finite (n : ℚ)) = .finite (n : ℚ) := by
  unfold F32.ceil
  have : Int.ceil ((n : ℚ)) = (n : ℤ) := Int.ceil_natCast _
  simp only [this]
  push_cast
  rfl

theorem F32.sub_zero_natCast (n : ℕ) :
    F32.sub (.finite (n : ℚ)) (.finite 0) = F32.round (n : ℚ) := by
  show F32.round ((n : ℚ) + -0) = F32.round (n : ℚ)
  rw [neg_zero, add_zero]

theorem F32.add_one_natCast (n : ℕ) :
    F32.add (.finite (n : ℚ)) (.finite 1) = F32.round ((n + 1 : ℕ) : ℚ) := by
  unfold F32.add
  push_cast
  rfl

theorem be_rect_at_two_pow_24 :
    BE_RECT_WIDTH ⟨.finite 0, .finite 0, .finite 16777216, .finite 33554432⟩ = .finite 16777216
    ∧ BE_RECT_HEIGHT ⟨.finite 0, .finite 0, .finite 16777216, .finite 33554432⟩
        = .finite 33554432 := by
  have hw := F32.ceil_natCast 16777216
  have hh := F32.ceil_natCast 33554432
  have sw := F32.sub_zero_natCast 16777216
  have sh := F32.sub_zero_natCast 33554432
  have aw := F32.add_one_natCast 16777216
  have ah := F32.add_one_natCast 33554432
  simp only [Nat.cast_ofNat, Nat.reduceAdd] at hw hh sw sh aw ah
  rw [F32.round_16777216] at sw
  rw [F32.round_33554432] at sh
  rw [F32.round_16777217] at aw
  rw [F32.round_33554433] at ah
  unfold BE_RECT_WIDTH BE_RECT_HEIGHT
  simp only [F32.ofInt_one, sw, sh, aw, ah, hw, hh, and_self]

theorem F32.round_zero : F32.round 0 = .finite 0 := by
  have := F32.round_natCast 0 (by norm_num)
  simpa using this

theorem F32.finite_injective (a b : ℚ) (h : F32.finite a = F32.finite b) : a = b := by
  injection h

/-- C5, as stated, fails: `BRect (0, 0, 16777216, 33554432)` has integer coordinates,
all four of them float values, with right at least left and bottom at least top, and
there `BE_RECT_WIDTH` is 16777216, not 16777217, and `BE_RECT_HEIGHT` is 33554432, not
33554433: the float addition of 1 rounds back. -/
theorem be_rect_size_rounds_when_huge :
    F32.exact 0 ∧ F32.exact 16777216 ∧ F32.exact 33554432
    ∧ BE_RECT_WIDTH ⟨.finite 0, .finite 0, .finite 16777216, .finite 33554432⟩
        = .finite 16777216
    ∧ BE_RECT_HEIGHT ⟨.finite 0, .finite 0, .finite 16777216, .finite 33554432⟩
        = .finite 33554432
    ∧ ¬ (∀ l t r b : ℤ, F32.exact l → F32.exact t → F32.exact r → F32.exact b →
          l ≤ r → t ≤ b →
          BE_RECT_WIDTH ⟨.finite l, .finite t, .finite r, .finite b⟩
              = .finite ((r - l + 1 : ℤ) : ℚ)
          ∧ BE_RECT_HEIGHT ⟨.finite l, .finite t, .finite r, .finite b⟩
              = .finite ((b - t + 1 : ℤ) : ℚ)) := by
  have h0 : F32.exact 0 := F32.round_zero
  have h24 : F32.exact 16777216 := F32.round_16777216
  have h25 : F32.exact 33554432 := F32.round_33554432
  refine ⟨h0, h24, h25, be_rect_at_two_pow_24.1, be_rect_at_two_pow_24.2, ?_⟩
  intro h
  have hc := (h 0 0 16777216 33554432 (by simpa using h0) (by simpa using h0)
    (by simpa using h24) (by simpa using h25) (by norm_num) (by norm_num)).1
  simp only [Int.cast_zero, Int.cast_ofNat] at hc
  rw [be_rect_at_two_pow_24.1] at hc
  have := F32.finite_injective _ _ hc
  norm_num at this

/-- C5, amended: for a rectangle with integer coordinates, right at least left and
bottom at least top, whose sides span fewer than 2^24 units, `BE_RECT_WIDTH` is
right - left + 1 and `BE_RECT_HEIGHT` is bottom - top + 1: the number of pixel columns,
resp. rows, counting both edges, one more than the end-minus-start difference of
`IntegerWidth`, resp. `IntegerHeight`. -/
theorem be_rect_size (l t r b : ℤ) (hw : l ≤ r) (hh : t ≤ b)
    (hwb : r - l < 2 ^ 24) (hhb : b - t < 2 ^ 24) :
    BE_RECT_WIDTH ⟨.finite l, .finite t, .finite r, .finite b⟩
        = .finite ((r - l + 1 : ℤ) : ℚ)
    ∧ BE_RECT_HEIGHT ⟨.finite l, .finite t, .finite r, .finite b⟩
        = .finite ((b - t + 1 : ℤ) : ℚ)
    ∧ BE_RECT_WIDTH ⟨.finite l, .finite t, .finite r, .finite b⟩
        = .finite ((Finset.Icc l r).card : ℚ)
    ∧ BE_RECT_HEIGHT ⟨.finite l, .finite t, .finite r, .finite b⟩
        = .finite ((Finset.Icc t b).card : ℚ)
    ∧ BRect.IntegerWidth ⟨.finite l, .finite t, .finite r, .finite b⟩
        = .finite ((r - l : ℤ) : ℚ)
    ∧ BRect.IntegerHeight ⟨.finite l, .finite t, .finite r, .finite b⟩
        = .finite ((b - t : ℤ) : ℚ) := by
  obtain ⟨hW, hIW⟩ := rect_extent l r hw hwb
  obtain ⟨hH, hIH⟩ := rect_extent t b hh hhb
  have cW : ((Finset.Icc l r).card : ℚ) = ((r - l + 1 : ℤ) : ℚ) := by
    have : ((Finset.Icc l r).card : ℤ) = r - l + 1 := by
      rw [Int.card_Icc, Int.toNat_of_nonneg (by omega)]; ring
    exact_mod_cast this
  have cH : ((Finset.Icc t b).card : ℚ) = ((b - t + 1 : ℤ) : ℚ) := by
    have : ((Finset.Icc t b).card : ℤ) = b - t + 1 := by
      rw [Int.card_Icc, Int.toNat_of_nonneg (by omega)]; ring
    exact_mod_cast this
  refine ⟨hW, hH, ?_, ?_, hIW, hIH⟩
  · rw [cW]; exact hW
  · rw [cH]; exact hH

/-- C5 at `BRect (1, 1, 5, 5)`: the width and the height are 5, where `IntegerWidth`
and `IntegerHeight` give 4. -/
theorem be_rect_size_example :
    (1 : ℤ) ≤ 5 ∧ (5 : ℤ) - 1 < 2 ^ 24
    ∧ BE_RECT_WIDTH ⟨.finite 1, .finite 1, .finite 5, .finite 5⟩ = .finite 5
    ∧ BE_RECT_HEIGHT ⟨.finite 1, .finite 1, .finite 5, .finite 5⟩ = .finite 5
    ∧ BRect.IntegerWidth ⟨.finite 1, .finite 1, .finite 5, .finite 5⟩ = .finite 4
    ∧ BRect.IntegerHeight ⟨.finite 1, .finite 1, .finite 5, .finite 5⟩ = .finite 4 := by
  have h := be_rect_size 1 1 5 5 (by decide) (by decide) (by decide) (by decide)
  norm_num at h
  exact ⟨by decide, by decide, h.1, h.2.1, h.2.2.2.2.1, h.2.2.2.2.2⟩

/-! ## The channel: order and round trip -/

theorem Port.write_ok (p : Port) (m : Message) (b : Bool) (p' : Port)
    (h : p.write m b = (.ok, p')) :
    p' = { p with queue := p.queue ++ [m] } ∧ p.closed = false
      ∧ p.queue.length < p.capacity := by
  unfold Port.write at h
  by_cases hc : p.closed = true
  · simp [hc] at h
  · by_cases hl : p.queue.length < p.capacity
    · rw [if_neg hc, if_pos hl] at h
      exact ⟨(Prod.mk.inj h).2.symm, by simpa using hc, hl⟩
    · cases b <;> simp [hc, hl] at h

theorem Port.write_of_room (p : Port) (m : Message) (b : Bool) (hc : p.closed = false)
    (hl : p.queue.length < p.capacity) :
    p.write m b = (.ok, { p with queue := p.queue ++ [m] }) := by
  simp [Port.write, hc, hl]

theorem haiku_write_ok (p : Port) (type : haiku_event_type) (buf : Payload) (p' : Port)
    (h : haiku_write p type buf = (.ok, p')) :
    p'.queue = p.queue ++ [⟨toInt type, buf⟩] ∧ p'.capacity = p.capacity
      ∧ p'.closed = p.closed := by
  unfold haiku_write at h
  generalize hw : p.write ⟨toInt type, buf⟩ true = r at h
  obtain ⟨s, q⟩ := r
  cases s
  · obtain ⟨hq, -, -⟩ := Port.write_ok p _ _ q hw
    simp only [Prod.mk.injEq, true_and] at h
    subst h
    subst hq
    exact ⟨rfl, rfl, rfl⟩
  all_goals simp at h

theorem WriteCall.run_ok (w : WriteCall) (p p' : Port) (h : w.run p = (.ok, p')) :
    p'.queue = p.queue ++ [w.message] ∧ p'.capacity = p.capacity
      ∧ p'.closed = p.closed := by
  unfold WriteCall.run at h
  cases hs : w.silent with
  | none =>
    rw [hs] at h
    exact haiku_write_ok p w.type w.buf p' h
  | some block =>
    rw [hs] at h
    obtain ⟨hq, -, -⟩ := Port.write_ok p _ _ p' h
    subst hq
    exact ⟨rfl, rfl, rfl⟩

theorem WriteCall.run_of_room (w : WriteCall) (p : Port) (hc : p.closed = false)
    (hl : p.queue.length < p.capacity) :
    ∃ p', w.run p = (.ok, p') := by
  unfold WriteCall.run
  cases w.silent with
  | none =>
    unfold haiku_write
    rw [Port.write_of_room p _ true hc hl]
    exact ⟨_, rfl⟩
  | some block => exact ⟨_, Port.write_of_room p _ block hc hl⟩

theorem writeAll_queue (ws : List WriteCall) (p p' : Port) (h : writeAll p ws = some p') :
    p'.queue = p.queue ++ ws.map WriteCall.message := by
  induction ws generalizing p with
  | nil =>
    simp only [writeAll, Option.some.injEq] at h
    subst h
    simp
  | cons w ws ih =>
    unfold writeAll at h
    generalize hr : w.run p = r at h
    obtain ⟨s, q⟩ := r
    cases s
    · obtain ⟨hq, -, -⟩ := WriteCall.run_ok w p q hr
      rw [ih q h, hq]
      simp
    all_goals simp at h

theorem writeAll_of_room (ws : List WriteCall) (p : Port) (hc : p.closed = false)
    (hl : p.queue.length + ws.length ≤ p.capacity) :
    ∃ p', writeAll p ws = some p' := by
  induction ws generalizing p with
  | nil => exact ⟨p, rfl⟩
  | cons w ws ih =>
    simp only [List.length_cons] at hl
    obtain ⟨q, hq⟩ := WriteCall.run_of_room w p hc (by omega)
    obtain ⟨h1, h2, h3⟩ := WriteCall.run_ok w p q hq
    obtain ⟨p', hp'⟩ := ih q (by rw [h3]; exact hc) (by rw [h1, h2]; simp; omega)
    refine ⟨p', ?_⟩
    unfold writeAll
    rw [hq]
    exact hp'

theorem readN_queue (n : Nat) (p : Port) (h : n ≤ p.queue.length) :
    (readN p n).1 = (p.queue.take n).map (fun m => ReadStatus.envelope m.code m.buf)
    ∧ (readN p n).2.queue = p.queue.drop n := by
  induction n generalizing p with
  | zero => simp [readN]
  | succ n ih =>
    obtain ⟨c, q, cl, sg⟩ := p
    cases q with
    | nil => simp at h
    | cons m rest =>
      simp only [List.length_cons, Nat.add_le_add_iff_right] at h
      have := ih ⟨c, rest, cl, sg⟩ h
      simp only [readN, haiku_read, List.take_succ_cons, List.map_cons, List.drop_succ_cons]
      exact ⟨by rw [this.1], this.2⟩

/-- C1: whatever envelopes w1..wn are written to one channel, by whichever producers
and with whichever of `haiku_write` and `haiku_write_without_signal`, once they have
all been written, n successive calls of `haiku_read` on that channel return exactly
w1..wn, in that order, and leave the channel empty. -/
theorem haiku_fifo (capacity : Nat) (ws : List WriteCall) (p : Port)
    (h : writeAll (haiku_io_init capacity) ws = some p) :
    (readN p ws.length).1
        = ws.map (fun w => ReadStatus.envelope (toInt w.type) w.buf)
    ∧ (readN p ws.length).2.queue = [] := by
  have hq : p.queue = ws.map WriteCall.message := by
    have := writeAll_queue ws _ p h
    simpa [haiku_io_init] using this
  have hlen : ws.length ≤ p.queue.length := by rw [hq]; simp
  obtain ⟨h1, h2⟩ := readN_queue ws.length p hlen
  refine ⟨?_, ?_⟩
  · rw [h1, hq]
    have : (List.map WriteCall.message ws).take ws.length = List.map WriteCall.message ws := by
      apply List.take_of_length_le
      simp
    rw [this, List.map_map]
    rfl
  · rw [h2, hq]
    apply List.drop_of_length_le
    simp

/-- C1 on a channel of capacity 4: producer 1 writes a key-down with `haiku_write`,
producer 2 a dummy event with `haiku_write_without_signal`, producer 1 a quit request;
three reads return them in that order. -/
theorem haiku_fifo_witness :
    writeAll (haiku_io_init 4)
      [ ⟨1, none, KEY_DOWN,
          [.void_ptr 4096, .int 2, .unsigned 65, .uint32_t 65, .bigtime_t 1000]⟩,
        ⟨2, some false, DUMMY_EVENT, [.char 0]⟩,
        ⟨1, none, QUIT_REQUESTED, [.void_ptr 4096]⟩ ]
      = some
        { capacity := 4,
          queue := [⟨3, [.void_ptr 4096, .int 2, .unsigned 65, .uint32_t 65, .bigtime_t 1000]⟩,
                    ⟨25, [.char 0]⟩, ⟨0, [.void_ptr 4096]⟩],
          closed := false, signals := 2 }
    ∧ (readN
      { capacity := 4,
        queue := [⟨3, [.void_ptr 4096, .int 2, .unsigned 65, .uint32_t 65, .bigtime_t 1000]⟩,
                  ⟨25, [.char 0]⟩, ⟨0, [.void_ptr 4096]⟩],
        closed := false, signals := 2 } 3).1
      = [ .envelope 3 [.void_ptr 4096, .int 2, .unsigned 65, .uint32_t 65, .bigtime_t 1000],
          .envelope 25 [.char 0], .envelope 0 [.void_ptr 4096] ] :=
  ⟨rfl,
   (haiku_fifo 4
    [ ⟨1, none, KEY_DOWN, [.void_ptr 4096, .int 2, .unsigned 65, .uint32_t 65, .bigtime_t 1000]⟩,
      ⟨2, some false, DUMMY_EVENT, [.char 0]⟩,
      ⟨1, none, QUIT_REQUESTED, [.void_ptr 4096]⟩ ]
    _ rfl).1⟩

theorem haiku_write_init (capacity : Nat) (hcap : 0 < capacity) (K : haiku_event_type)
    (P : Payload) :
    haiku_write (haiku_io_init capacity) K P
      = (.ok, { capacity := capacity, queue := [⟨toInt K, P⟩], closed := false, signals := 1 }) := by
  unfold haiku_write
  rw [Port.write_of_room _ _ true rfl (by simpa [haiku_io_init] using hcap)]
  rfl

theorem haiku_write_without_signal_init (capacity : Nat) (hcap : 0 < capacity)
    (K : haiku_event_type) (P : Payload) (block : Bool) :
    haiku_write_without_signal (haiku_io_init capacity) K P block
      = (.ok, { capacity := capacity, queue := [⟨toInt K, P⟩], closed := false, signals := 0 }) := by
  unfold haiku_write_without_signal
  rw [Port.write_of_room _ _ block rfl (by simpa [haiku_io_init] using hcap)]
  rfl

theorem haiku_key_event.ofPayload_toPayload (e : haiku_key_event) :
    haiku_key_event.ofPayload e.toPayload = some e := rfl

/-- C2: on an empty channel (one that can hold an envelope at all), writing kind K with
payload P, by either write, succeeds, and the read that follows, by `haiku_read` or by
`haiku_read_with_timeout` with any bound, returns the code of K, which casts back to K,
and a payload equal to P value for value, bit for bit; the payload of a key event is a
value of `struct haiku_key_event`, from which the record written is reconstructed. -/
theorem haiku_round_trip (capacity : Nat) (hcap : 0 < capacity) (K : haiku_event_type)
    (P : Payload) (block : Bool) (timeout : Int) (flag : Bool) (e : haiku_key_event) :
    (haiku_write (haiku_io_init capacity) K P).1 = .ok
    ∧ (haiku_write_without_signal (haiku_io_init capacity) K P block).1 = .ok
    ∧ (haiku_read (haiku_write (haiku_io_init capacity) K P).2).1 = .envelope (toInt K) P
    ∧ (haiku_read_with_timeout (haiku_write (haiku_io_init capacity) K P).2 timeout flag).1
        = .envelope (toInt K) P
    ∧ (haiku_read (haiku_write_without_signal (haiku_io_init capacity) K P block).2).1
        = .envelope (toInt K) P
    ∧ (haiku_read_with_timeout
          (haiku_write_without_signal (haiku_io_init capacity) K P block).2 timeout flag).1
        = .envelope (toInt K) P
    ∧ ofInt (toInt K) = some K
    ∧ (haiku_read_with_timeout
          (haiku_write (haiku_io_init capacity) KEY_DOWN e.toPayload).2 timeout flag).1
        = .envelope (toInt KEY_DOWN) e.toPayload
    ∧ StructDecl.admits Decl.haiku_key_event e.toPayload = true
    ∧ haiku_key_event.ofPayload e.toPayload = some e := by
  rw [haiku_write_init capacity hcap K P, haiku_write_init capacity hcap KEY_DOWN e.toPayload,
    haiku_write_without_signal_init capacity hcap K P block]
  exact ⟨rfl, rfl, rfl, rfl, rfl, rfl, ofInt_toInt K, rfl, rfl, rfl⟩

/-- C2 at the specification's scenario: `KEY_DOWN` is written with the key event
(window 4096, modifiers `HAIKU_MODIFIER_CTRL`, keysym 65, multibyte_char 'A', time 1000)
to an empty channel of capacity 1; `haiku_read_with_timeout` with 5000 microseconds
returns the code 3 of `KEY_DOWN` and the payload of exactly that record. -/
theorem haiku_round_trip_key_down :
    0 < 1
    ∧ (haiku_read_with_timeout
        (haiku_write (haiku_io_init 1) KEY_DOWN
          (haiku_key_event.toPayload ⟨4096, HAIKU_MODIFIER_CTRL, 65, Char.toNat 'A', 1000⟩)).2
        5000 false).1
      = .envelope 3 [.void_ptr 4096, .int 2, .unsigned 65, .uint32_t 65, .bigtime_t 1000]
    ∧ ofInt 3 = some KEY_DOWN
    ∧ haiku_key_event.ofPayload
        [.void_ptr 4096, .int 2, .unsigned 65, .uint32_t 65, .bigtime_t 1000]
      = some ⟨4096, HAIKU_MODIFIER_CTRL, 65, Char.toNat 'A', 1000⟩ :=
  ⟨by decide,
   (haiku_round_trip 1 (by decide) KEY_DOWN [] false 5000 false
      ⟨4096, HAIKU_MODIFIER_CTRL, 65, Char.toNat 'A', 1000⟩).2.2.2.2.2.2.2.1,
   rfl,
   (haiku_round_trip 1 (by decide) KEY_DOWN [] false 5000 false
      ⟨4096, HAIKU_MODIFIER_CTRL, 65, Char.toNat 'A', 1000⟩).2.2.2.2.2.2.2.2.2⟩

/-! ## The dispatcher and unknown kinds -/

theorem Dispatcher.step_aborted (d : Dispatcher) (h : d.aborted = true) :
    d.step = (.aborted, d) := by
  simp [Dispatcher.step, h]

theorem Dispatcher.run_aborted (n : Nat) (d : Dispatcher) (h : d.aborted = true) :
    d.run n = d := by
  induction n with
  | zero => rfl
  | succ n ih =>
    unfold Dispatcher.run
    rw [Dispatcher.step_aborted d h]
    exact ih

theorem Dispatcher.step_pending (d : Dispatcher) (m : Message) (rest : List Message)
    (hlive : d.aborted = false) (hq : d.port.queue = m :: rest) :
    d.step =
      match ofInt m.code with
      | some kind =>
        (.dispatched kind,
          { d with port := { d.port with queue := rest },
                   handled := d.handled ++ [(kind, m.buf)] })
      | none => (.aborted, { d with port := { d.port with queue := rest }, aborted := true }) := by
  unfold Dispatcher.step haiku_read
  rw [hq]
  simp only [hlive, Bool.false_eq_true, if_false, List.isEmpty_cons]

theorem ofInt_eq_none_iff (n : Int) : ofInt n = none ↔ (n < 0 ∨ 26 < n) := by
  constructor
  · intro h
    by_contra hc
    obtain ⟨k, hk, -⟩ := ofInt_some_of_range n (by omega) (by omega)
    rw [h] at hk
    exact Option.noConfusion hk
  · intro h
    cases ho : ofInt n with
    | none => rfl
    | some k =>
      have := (ofInt_eq_some_iff n k).mp ho
      have := toInt_lt k
      omega

/-- C7: when the envelope the dispatcher reads next has a kind code that is no value of
`haiku_event_type`, that is, a code outside 0..26, the dispatcher aborts, and neither
then nor on any later turn does it reconstruct a record or invoke a handler; when the
code is the value of an enumerator the dispatcher does not abort: it hands the record
to the handler of that kind. -/
theorem dispatcher_aborts_on_unknown_kind (d : Dispatcher) (m : Message)
    (rest : List Message) (hlive : d.aborted = false) (hq : d.port.queue = m :: rest) :
    (d.step.1 = .aborted ↔ ¬ ∃ k : haiku_event_type, toInt k = m.code)
    ∧ (d.step.1 = .aborted ↔ (m.code < 0 ∨ 26 < m.code))
    ∧ (d.step.1 = .aborted →
        ∀ n : Nat, (d.step.2.run n).handled = d.handled ∧ (d.step.2.run n).aborted = true)
    ∧ (∀ k : haiku_event_type, toInt k = m.code →
        d.step = (.dispatched k,
          { port := { d.port with queue := rest },
            handled := d.handled ++ [(k, m.buf)],
            aborted := false })) := by
  have hstep := Dispatcher.step_pending d m rest hlive hq
  cases ho : ofInt m.code with
  | none =>
    rw [ho] at hstep
    have hrange := (ofInt_eq_none_iff m.code).mp ho
    have hno : ¬ ∃ k : haiku_event_type, toInt k = m.code := by
      rintro ⟨k, hk⟩
      have := toInt_lt k
      omega
    refine ⟨?_, ?_, ?_, ?_⟩
    · rw [hstep]; exact ⟨fun _ => hno, fun _ => rfl⟩
    · rw [hstep]; exact ⟨fun _ => hrange, fun _ => rfl⟩
    · intro _ n
      rw [hstep]
      rw [Dispatcher.run_aborted n _ rfl]
      exact ⟨rfl, rfl⟩
    · intro k hk
      exact absurd ⟨k, hk⟩ hno
  | some k0 =>
    rw [ho] at hstep
    have hk0 := (ofInt_eq_some_iff m.code k0).mp ho
    have hb := toInt_lt k0
    refine ⟨?_, ?_, ?_, ?_⟩
    · rw [hstep]
      constructor
      · intro h; cases h
      · intro h; exact absurd ⟨k0, hk0⟩ h
    · rw [hstep]
      constructor
      · intro h; cases h
      · intro h; omega
    · rw [hstep]
      intro h; cases h
    · intro k hk
      have : k = k0 := toInt_injective (hk.trans hk0.symm)
      subst this
      rw [hstep]
      obtain ⟨p, hd, ab⟩ := d
      simp only at hlive
      subst hlive
      rfl

/-- C7 at two inputs: a dispatcher whose next envelope carries the code 27 aborts and
invokes nothing, also over the next five turns; one whose next envelope carries the
code 26 dispatches `MENU_BAR_LEFT`. -/
theorem dispatcher_aborts_on_unknown_kind_witness :
    (Dispatcher.step ⟨⟨4, [⟨27, [.char 0]⟩, ⟨0, [.void_ptr 4096]⟩], false, 0⟩, [], false⟩).1
        = .aborted
    ∧ ((Dispatcher.step
          ⟨⟨4, [⟨27, [.char 0]⟩, ⟨0, [.void_ptr 4096]⟩], false, 0⟩, [], false⟩).2.run 5).handled
        = []
    ∧ Dispatcher.step ⟨⟨4, [⟨26, [.void_ptr 4096, .int 1, .int 2]⟩], false, 0⟩, [], false⟩
        = (.dispatched MENU_BAR_LEFT,
            ⟨⟨4, [], false, 0⟩, [(MENU_BAR_LEFT, [.void_ptr 4096, .int 1, .int 2])], false⟩) :=
  ⟨(dispatcher_aborts_on_unknown_kind
      ⟨⟨4, [⟨27, [.char 0]⟩, ⟨0, [.void_ptr 4096]⟩], false, 0⟩, [], false⟩
      ⟨27, [.char 0]⟩ [⟨0, [.void_ptr 4096]⟩] rfl rfl).2.1.mpr (Or.inr (by decide)),
   ((dispatcher_aborts_on_unknown_kind
      ⟨⟨4, [⟨27, [.char 0]⟩, ⟨0, [.void_ptr 4096]⟩], false, 0⟩, [], false⟩
      ⟨27, [.char 0]⟩ [⟨0, [.void_ptr 4096]⟩] rfl rfl).2.2.1 rfl 5).1,
   (dispatcher_aborts_on_unknown_kind
      ⟨⟨4, [⟨26, [.void_ptr 4096, .int 1, .int 2]⟩], false, 0⟩, [], false⟩
      ⟨26, [.void_ptr 4096, .int 1, .int 2]⟩ [] rfl rfl).2.2.2 MENU_BAR_LEFT rfl⟩

end Haiku
